import Mathlib

/-!
Verification of the credential-extraction and upstream-client-configuration
protocol of the `oa-bypass` reverse proxy (Rust, axum + async_openai).

The embedding models:
* HTTP header maps as association lists of (name, byte value) pairs, with the
  case-insensitive lookup semantics of the `http` crate (header names are
  ASCII and compared case-insensitively; `HeaderMap::get(&str)` finds the
  first entry whose name matches case-insensitively);
* `HeaderValue::to_str`, which succeeds iff every byte is visible ASCII
  (32..=126) or horizontal tab (9);
* `src/utils.rs::create_client_from_headers`, transcribed line by line;
* `src/error.rs::AppError` and its `IntoResponse` conversion (status 500,
  body "Ошибка: {msg}");
* the 31 route handlers of `src/routes/*.rs`, which all share one dispatch
  template (resolve credential with a per-handler beta flag, invoke exactly
  one upstream operation, wrap upstream errors with a per-handler message),
  except `files.rs::upload_file`, which first extracts multipart fields and
  is modelled in full;
* the upstream SDK call as an oracle function from configuration and
  argument to a result, so that theorems can quantify over upstream
  behaviour and observe which calls a handler performs.
-/

namespace OABypass

/-- ASCII lower-casing of a single character, as performed by the `http`
crate when normalizing header names (only A-Z are mapped). -/
def lowerAscii (c : Char) : Char :=
  if 65 ≤ c.toNat ∧ c.toNat ≤ 90 then Char.ofNat (c.toNat + 32) else c

/-- Lower-case an ASCII header name. -/
def lowerName (n : List Char) : List Char := n.map lowerAscii

/-- A header value is a raw byte sequence (`http::HeaderValue`). -/
abbrev HeaderValue := List Nat

/-- An inbound header map: a list of (raw name, byte value) entries.
`http::HeaderMap` loses the inbound casing of names (they are stored
lower-cased), which is modelled here by keeping the raw name and comparing
case-insensitively on lookup. -/
abbrev HeaderMap := List (List Char × HeaderValue)

/-- `HeaderMap::get`: first entry whose name equals the key
case-insensitively. -/
def getHeader (hs : HeaderMap) (k : List Char) : Option HeaderValue :=
  (hs.find? (fun p => lowerName p.1 == lowerName k)).map (fun p => p.2)

/-- A byte accepted by `http::HeaderValue::to_str`: visible ASCII or tab. -/
def visibleByte (b : Nat) : Bool := (32 ≤ b && b < 127) || b == 9

/-- A character whose single-byte encoding is accepted by `to_str`. -/
def visibleChar (c : Char) : Bool := visibleByte c.toNat

/-- `HeaderValue::to_str`: succeeds iff every byte is visible ASCII or tab,
yielding the bytes decoded as characters. -/
def headerValueToStr (v : HeaderValue) : Option (List Char) :=
  if v.all visibleByte then some (v.map Char.ofNat) else none

/-- Encode an ASCII string as header-value bytes. -/
def strBytes (s : List Char) : HeaderValue := s.map Char.toNat

/-- `str::strip_prefix`: remove `p` from the front of `s` if present. -/
def stripPrefixList (p s : List Char) : Option (List Char) :=
  if p.isPrefixOf s then some (s.drop p.length) else none

/-- `Option::or_else` on already-computed alternatives (the Rust closures
here are pure). -/
def orOpt {α : Type} : Option α → Option α → Option α
  | some v, _ => some v
  | none, b => b

/-- `src/error.rs`: `pub struct AppError(pub String)`. -/
structure AppError where
  msg : String
deriving DecidableEq, Repr

/-- The missing-header error of `create_client_from_headers`. -/
def errNoAuthHeader : AppError := ⟨"Authorization заголовок не найден"⟩

/-- The unreadable-encoding error of `create_client_from_headers`. -/
def errBadAuthFormat : AppError := ⟨"Неверный формат Authorization заголовка"⟩

/-- The empty-credential error of `create_client_from_headers`. -/
def errEmptyKey : AppError := ⟨"API ключ пустой"⟩

/-- `async_openai::config::OpenAIConfig`, restricted to the parts this
program sets: the API key and the extra headers added by `with_header`.
The upstream client (`Client::with_config`) is identified with its
configuration, since the configuration is all this program contributes. -/
structure OpenAIConfig where
  api_key : List Char
  extraHeaders : List (List Char × List Char)
deriving DecidableEq, Repr

/-- `OpenAIConfig::new()`: empty key, no extra headers. -/
def OpenAIConfig.new : OpenAIConfig := ⟨[], []⟩

/-- `OpenAIConfig::with_api_key`. -/
def OpenAIConfig.with_api_key (c : OpenAIConfig) (k : List Char) : OpenAIConfig :=
  { c with api_key := k }

/-- A character allowed in an `http::HeaderName` (lower- or upper-case
letters, digits, and the RFC 7230 token symbols, given by code point). -/
def isTokenChar (c : Char) : Bool :=
  c.isAlpha || c.isDigit ||
    [33, 35, 36, 37, 38, 39, 42, 43, 45, 46, 94, 95, 96, 124, 126].contains c.toNat

/-- `HeaderName` parsing: non-empty, token characters only, normalized to
lower case. -/
def parseHeaderName (s : List Char) : Option (List Char) :=
  if s ≠ [] && s.all isTokenChar then some (lowerName s) else none

/-- A character allowed in an `http::HeaderValue` built from a string:
anything but control characters (tab excepted) and DEL. -/
def validValueChar (c : Char) : Bool := (32 ≤ c.toNat || c.toNat == 9) && c.toNat != 127

/-- `HeaderValue` parsing from a string. -/
def parseHeaderValueStr (s : List Char) : Option (List Char) :=
  if s.all validValueChar then some s else none

/-- `OpenAIConfig::with_header`: parse the name and value; on success insert
the header (replacing any previous entry of the same name), otherwise fail. -/
def OpenAIConfig.with_header (c : OpenAIConfig) (k v : List Char) : Except String OpenAIConfig :=
  match parseHeaderName k, parseHeaderValueStr v with
  | some k2, some v2 =>
    .ok { c with extraHeaders := (k2, v2) :: c.extraHeaders.filter (fun p => !(p.1 == k2)) }
  | _, _ => .error "invalid header"

/-- `src/utils.rs::create_client_from_headers`, transcribed:
look up the Authorization header (`get("authorization")` falling back to
`get("Authorization")`), decode it as text, strip a `"Bearer "` or
`"bearer "` prefix if present, reject an empty key, and build the client
configuration, adding `OpenAI-Beta: assistants=v2` when `use_beta`. -/
def create_client_from_headers (headers : HeaderMap) (use_beta : Bool) :
    Except AppError OpenAIConfig :=
  match orOpt (getHeader headers "authorization".data) (getHeader headers "Authorization".data) with
  | none => .error errNoAuthHeader
  | some auth_header =>
    match headerValueToStr auth_header with
    | none => .error errBadAuthFormat
    | some auth_str =>
      let api_key :=
        (orOpt (stripPrefixList "Bearer ".data auth_str)
               (stripPrefixList "bearer ".data auth_str)).getD auth_str
      if api_key = [] then .error errEmptyKey
      else
        let config := OpenAIConfig.new.with_api_key api_key
        if use_beta then
          match config.with_header "OpenAI-Beta".data "assistants=v2".data with
          | .ok c => .ok c
          | .error e => .error ⟨"Ошибка создания конфигурации: " ++ e⟩
        else .ok config

/-- Modelled from the spec: the process-wide application-state handle
(`src/state.rs` is not present in the source tree; only its uses are).
The spec describes it as an inert object threaded through every handler
"via shared-ownership reference counting, yet no handler reads or writes
it" — a place to hang future cross-request state. It is modelled as an
opaque value with content, so that independence from it is non-vacuous. -/
structure AppState where
  inert : Nat
deriving DecidableEq, Repr

/-- Decidable equality for `Except`, needed to decide concrete outcomes. -/
instance {ε α : Type} [DecidableEq ε] [DecidableEq α] : DecidableEq (Except ε α) := fun a b =>
  match a, b with
  | .ok x, .ok y =>
    if h : x = y then isTrue (by rw [h]) else isFalse (fun hh => h (Except.ok.inj hh))
  | .error x, .error y =>
    if h : x = y then isTrue (by rw [h]) else isFalse (fun hh => h (Except.error.inj hh))
  | .ok _, .error _ => isFalse (fun hh => Except.noConfusion hh)
  | .error _, .ok _ => isFalse (fun hh => Except.noConfusion hh)

/-- One multipart form field as seen by `axum::extract::Multipart`:
its name (`field.name().unwrap_or("")`), its optional file name
(`field.file_name()`), and the outcomes of reading it as bytes
(`field.bytes()`) or as text (`field.text()`), which the runtime may fail. -/
structure MPField where
  name : List Char
  filename : Option (List Char)
  bytesRes : Except String (List Nat)
  textRes : Except String (List Char)
deriving DecidableEq, Repr

/-- A multipart body: the fields yielded by `next_field`, and an optional
stream error reported by `next_field` after the last field. -/
structure Multipart where
  fields : List MPField
  streamErr : Option String
deriving DecidableEq, Repr

/-- `async_openai::types::files::FilePurpose`, restricted to the variants
`upload_file` can produce. -/
inductive FilePurpose where
  | assistants
  | fineTune
deriving DecidableEq, Repr

/-- `files.rs` lines 85-89: map the multipart `purpose` text to a
`FilePurpose`, defaulting to `Assistants`. -/
def purposeOf (p : List Char) : FilePurpose :=
  if p = "assistants".data then .assistants
  else if p = "fine-tune".data then .fineTune
  else .assistants

/-- `async_openai::types::files::CreateFileRequest` as built by
`upload_file`: file input from (filename, bytes), a purpose, and
`expires_after: None`. -/
structure CreateFileRequest where
  filename : List Char
  bytes : List Nat
  purpose : FilePurpose
  expires_after : Option Nat
deriving DecidableEq, Repr

/-- The argument a handler passes to its single upstream SDK call: either
the request payload relayed verbatim (body and path parameters, opaque to
this program), or the file-creation request built by `upload_file`. -/
inductive UpstreamArg where
  | passthrough (payload : List Nat)
  | fileCreate (req : CreateFileRequest)
deriving DecidableEq, Repr

/-- The upstream SDK as an oracle: from client configuration and call
argument to an upstream response (opaque bytes) or an upstream error
message. -/
def Upstream : Type := OpenAIConfig → UpstreamArg → Except String (List Nat)

/-- An inbound request as a handler sees it: the header map, the opaque
payload (JSON body and path parameters, relayed verbatim), and the
multipart body (consumed only by `upload_file`). -/
structure Request where
  headers : HeaderMap
  payload : List Nat
  multipart : Multipart
deriving DecidableEq, Repr

/-- The observable outcome of running a handler: its result, and the list
of upstream invocations it performed (configuration and argument, in
order). -/
structure Outcome where
  result : Except AppError (List Nat)
  calls : List (OpenAIConfig × UpstreamArg)
deriving DecidableEq, Repr

/-- The common dispatch template shared by all handlers except
`upload_file` (e.g. `completions.rs::chat_completions`): resolve the
credential with the handler's beta flag, invoke exactly one upstream
operation, and wrap an upstream error with the handler's message prefix. -/
def dispatchShim (flag : Bool) (wrap : String) (_state : AppState) (req : Request)
    (up : Upstream) : Outcome :=
  match create_client_from_headers req.headers flag with
  | .error e => ⟨.error e, []⟩
  | .ok c =>
    match up c (.passthrough req.payload) with
    | .error e => ⟨.error ⟨wrap ++ ": " ++ e⟩, [(c, .passthrough req.payload)]⟩
    | .ok r => ⟨.ok r, [(c, .passthrough req.payload)]⟩

/-- The `while let Some(field) = multipart.next_field()` loop of
`files.rs::upload_file` (lines 49-77), threading the three accumulators
`file_bytes`, `filename`, `purpose`. -/
def uploadLoop : List MPField → Option (List Nat) → Option (List Char) → Option (List Char) →
    Except AppError (Option (List Nat) × Option (List Char) × Option (List Char))
  | [], fb, fn, p => .ok (fb, fn, p)
  | f :: rest, fb, fn, p =>
    if f.name = "file".data then
      match f.bytesRes with
      | .error e => .error ⟨"File read error: " ++ e⟩
      | .ok b => uploadLoop rest (some b) f.filename p
    else if f.name = "purpose".data then
      match f.textRes with
      | .error e => .error ⟨"Purpose read error: " ++ e⟩
      | .ok t => uploadLoop rest fb fn (some t)
    else uploadLoop rest fb fn p

/-- The multipart extraction stage of `upload_file` (lines 49-81): run the
field loop, surface a stream error, then require `file`, a file name, and
`purpose` in that order. -/
def extractUpload (mp : Multipart) : Except AppError (List Nat × List Char × List Char) :=
  match uploadLoop mp.fields none none none with
  | .error e => .error e
  | .ok (fb, fn, p) =>
    match mp.streamErr with
    | some e => .error ⟨"Multipart error: " ++ e⟩
    | none =>
      match fb with
      | none => .error ⟨"File not provided"⟩
      | some fb =>
        match fn with
        | none => .error ⟨"Filename not provided"⟩
        | some fn =>
          match p with
          | none => .error ⟨"Purpose not provided"⟩
          | some p => .ok (fb, fn, p)

/-- `files.rs::upload_file` (lines 38-113): extract the multipart fields,
then resolve the credential with beta flag `false`, build the
`CreateFileRequest`, and perform the single upstream `files().create` call,
wrapping an upstream error with "Upload file error". -/
def upload_file (_state : AppState) (req : Request) (up : Upstream) : Outcome :=
  match extractUpload req.multipart with
  | .error e => ⟨.error e, []⟩
  | .ok (fb, fn, p) =>
    match create_client_from_headers req.headers false with
    | .error e => ⟨.error e, []⟩
    | .ok c =>
      let fr : CreateFileRequest := ⟨fn, fb, purposeOf p, none⟩
      match up c (.fileCreate fr) with
      | .error e => ⟨.error ⟨"Upload file error: " ++ e⟩, [(c, .fileCreate fr)]⟩
      | .ok r => ⟨.ok r, [(c, .fileCreate fr)]⟩

/-- The nine upstream resource families of `src/routes/`. -/
inductive Family where
  | completions | embeddings | models | images | assistants
  | threads | messages | runs | files | responses
deriving DecidableEq, Repr

/-- The "stateful conversation" family subset that requires the
`OpenAI-Beta: assistants=v2` protocol-version header. -/
def Family.isStateful : Family → Bool
  | .assistants | .threads | .messages | .runs => true
  | _ => false

/-- The 31 route handlers registered in `routes/mod.rs::create_router`. -/
inductive Handler where
  | chat_completions | completions
  | embeddings
  | list_models | get_model
  | create_image
  | create_assistant | list_assistants | get_assistant | modify_assistant | delete_assistant
  | create_thread | get_thread | modify_thread | delete_thread
  | create_message | list_messages | get_message | modify_message
  | create_run | list_runs | get_run | modify_run | cancel_run
  | submit_tool_outputs | create_thread_and_run
  | upload_file | list_files | get_file | delete_file | get_file_content
  | create_response | get_response | delete_response | cancel_response
deriving DecidableEq, Repr

/-- The file (resource family) each handler lives in. -/
def handlerFamily : Handler → Family
  | .chat_completions | .completions => .completions
  | .embeddings => .embeddings
  | .list_models | .get_model => .models
  | .create_image => .images
  | .create_assistant | .list_assistants | .get_assistant
  | .modify_assistant | .delete_assistant => .assistants
  | .create_thread | .get_thread | .modify_thread | .delete_thread => .threads
  | .create_message | .list_messages | .get_message | .modify_message => .messages
  | .create_run | .list_runs | .get_run | .modify_run | .cancel_run
  | .submit_tool_outputs | .create_thread_and_run => .runs
  | .upload_file | .list_files | .get_file | .delete_file | .get_file_content => .files
  | .create_response | .get_response | .delete_response | .cancel_response => .responses

/-- The literal `use_beta` argument each handler passes to
`create_client_from_headers`, transcribed from each call site
(`true` in assistants.rs, threads.rs, messages.rs, runs.rs; `false` in
completions.rs, embeddings.rs, models.rs, images.rs, files.rs,
responses.rs). -/
def handlerBeta : Handler → Bool
  | .create_assistant | .list_assistants | .get_assistant
  | .modify_assistant | .delete_assistant => true
  | .create_thread | .get_thread | .modify_thread | .delete_thread => true
  | .create_message | .list_messages | .get_message | .modify_message => true
  | .create_run | .list_runs | .get_run | .modify_run | .cancel_run
  | .submit_tool_outputs | .create_thread_and_run => true
  | _ => false

/-- The per-handler upstream-error message prefix, transcribed from each
`AppError(format!(...))` call site. -/
def handlerWrap : Handler → String
  | .chat_completions => "Chat completion error"
  | .completions => "Text completion error"
  | .embeddings => "Embedding error"
  | .list_models => "List models error"
  | .get_model => "Get model error"
  | .create_image => "Image generation error"
  | .create_assistant => "Create assistant error"
  | .list_assistants => "List assistants error"
  | .get_assistant => "Get assistant error"
  | .modify_assistant => "Modify assistant error"
  | .delete_assistant => "Delete assistant error"
  | .create_thread => "Create thread error"
  | .get_thread => "Get thread error"
  | .modify_thread => "Modify thread error"
  | .delete_thread => "Delete thread error"
  | .create_message => "Create message error"
  | .list_messages => "List messages error"
  | .get_message => "Get message error"
  | .modify_message => "Modify message error"
  | .create_run => "Create run error"
  | .list_runs => "List runs error"
  | .get_run => "Get run error"
  | .modify_run => "Modify run error"
  | .cancel_run => "Cancel run error"
  | .submit_tool_outputs => "Submit tool outputs error"
  | .create_thread_and_run => "Create thread and run error"
  | .upload_file => "Upload file error"
  | .list_files => "List files error"
  | .get_file => "Get file error"
  | .delete_file => "Delete file error"
  | .get_file_content => "Get file content error"
  | .create_response => "Create response error"
  | .get_response => "Get response error"
  | .delete_response => "Delete response error"
  | .cancel_response => "Cancel response error"

/-- Run a handler on a request against an upstream oracle. Every handler
except `upload_file` is an instance of the shared dispatch template with
its own beta flag and error-message prefix; `upload_file` additionally
extracts the multipart body first. -/
def runHandler (h : Handler) (st : AppState) (req : Request) (up : Upstream) : Outcome :=
  match h with
  | .upload_file => upload_file st req up
  | h => dispatchShim (handlerBeta h) (handlerWrap h) st req up

/-- An HTTP response as axum produces it: a status code and a body. -/
structure HttpResponse where
  status : Nat
  body : String
deriving DecidableEq, Repr

/-- `error.rs`: `impl IntoResponse for AppError` — status 500
INTERNAL_SERVER_ERROR with body `format!("Ошибка: {}", self.0)`. -/
def AppError.into_response (e : AppError) : HttpResponse :=
  ⟨500, "Ошибка: " ++ e.msg⟩

/-- How a handler's `Result<Json<T>, AppError>` is surfaced by axum: an
error through `AppError::into_response`, a success as 200 with the
serialized body. -/
def respond (o : Outcome) : HttpResponse :=
  match o.result with
  | .error e => e.into_response
  | .ok r => ⟨200, toString r⟩

/-- Does a configuration carry the header `OpenAI-Beta: assistants=v2`
(header names compared case-insensitively)? -/
def hasBetaHeader (c : OpenAIConfig) : Bool :=
  c.extraHeaders.any (fun p => lowerName p.1 == "openai-beta".data && p.2 == "assistants=v2".data)

/-! ### Helper lemmas about the embedded definitions -/

theorem getHeader_cons_of_ne (q : List Char × HeaderValue) (hs : HeaderMap) (k : List Char)
    (h : lowerName q.1 ≠ lowerName k) : getHeader (q :: hs) k = getHeader hs k := by
  unfold getHeader
  rw [List.find?_cons_of_neg]
  simpa using h

theorem getHeader_cons_of_eq (q : List Char × HeaderValue) (hs : HeaderMap) (k : List Char)
    (h : lowerName q.1 = lowerName k) : getHeader (q :: hs) k = some q.2 := by
  unfold getHeader
  have hb : (lowerName q.1 == lowerName k) = true := by simp [h]
  rw [List.find?_cons_of_pos hs (show (fun p => lowerName p.1 == lowerName k) q = true from hb)]
  rfl

theorem getHeader_none_of (hs : HeaderMap) (k : List Char)
    (h : ∀ q ∈ hs, lowerName q.1 ≠ lowerName k) : getHeader hs k = none := by
  induction hs with
  | nil => rfl
  | cons q rest ih =>
    rw [getHeader_cons_of_ne q rest k (h q (List.mem_cons_self q rest))]
    exact ih (fun q2 hq2 => h q2 (List.mem_cons_of_mem q hq2))

theorem getHeader_append_of (pre rest : HeaderMap) (k : List Char)
    (h : ∀ q ∈ pre, lowerName q.1 ≠ lowerName k) :
    getHeader (pre ++ rest) k = getHeader rest k := by
  induction pre with
  | nil => rfl
  | cons q pre2 ih =>
    rw [List.cons_append, getHeader_cons_of_ne q (pre2 ++ rest) k (h q (List.mem_cons_self q pre2))]
    exact ih (fun q2 hq2 => h q2 (List.mem_cons_of_mem q hq2))

theorem strBytes_all (s : List Char) : (strBytes s).all visibleByte = s.all visibleChar := by
  induction s with
  | nil => rfl
  | cons c cs ih =>
    simp only [strBytes, List.map_cons, List.all_cons, visibleChar] at *
    rw [ih]

theorem strBytes_map_ofNat (s : List Char) : (strBytes s).map Char.ofNat = s := by
  induction s with
  | nil => rfl
  | cons c cs ih =>
    simp only [strBytes, List.map_cons] at *
    rw [ih, Char.ofNat_toNat]

theorem toStr_strBytes (s : List Char) (h : s.all visibleChar = true) :
    headerValueToStr (strBytes s) = some s := by
  unfold headerValueToStr
  rw [strBytes_all, h, if_pos rfl, strBytes_map_ofNat]

theorem isPrefixOf_append_self (p X : List Char) : p.isPrefixOf (p ++ X) = true := by
  induction p with
  | nil => simp [List.isPrefixOf]
  | cons a as ih => simp [List.isPrefixOf, ih]

theorem stripPrefixList_append (p X : List Char) : stripPrefixList p (p ++ X) = some X := by
  simp [stripPrefixList, isPrefixOf_append_self, List.drop_left]

theorem with_header_beta (k : List Char) :
    (OpenAIConfig.new.with_api_key k).with_header "OpenAI-Beta".data "assistants=v2".data
      = .ok ⟨k, [("openai-beta".data, "assistants=v2".data)]⟩ := rfl

theorem create_missing (hs : HeaderMap) (b : Bool)
    (h : orOpt (getHeader hs "authorization".data) (getHeader hs "Authorization".data) = none) :
    create_client_from_headers hs b = .error errNoAuthHeader := by
  unfold create_client_from_headers
  rw [h]

theorem create_ok_of (hs : HeaderMap) (b : Bool) (v : HeaderValue) (s : List Char)
    (h1 : orOpt (getHeader hs "authorization".data) (getHeader hs "Authorization".data) = some v)
    (h2 : headerValueToStr v = some s)
    (h3 : (orOpt (stripPrefixList "Bearer ".data s) (stripPrefixList "bearer ".data s)).getD s ≠ []) :
    create_client_from_headers hs b =
      .ok ⟨(orOpt (stripPrefixList "Bearer ".data s) (stripPrefixList "bearer ".data s)).getD s,
           if b then [("openai-beta".data, "assistants=v2".data)] else []⟩ := by
  cases b with
  | false =>
    simp only [create_client_from_headers, h1, h2]
    rw [if_neg h3]
    rfl
  | true =>
    simp only [create_client_from_headers, h1, h2]
    rw [if_neg h3]
    rfl

theorem create_badformat (hs : HeaderMap) (b : Bool) (v : HeaderValue)
    (h1 : orOpt (getHeader hs "authorization".data) (getHeader hs "Authorization".data) = some v)
    (h2 : headerValueToStr v = none) :
    create_client_from_headers hs b = .error errBadAuthFormat := by
  simp [create_client_from_headers, h1, h2]

theorem create_empty_of (hs : HeaderMap) (b : Bool) (v : HeaderValue) (s : List Char)
    (h1 : orOpt (getHeader hs "authorization".data) (getHeader hs "Authorization".data) = some v)
    (h2 : headerValueToStr v = some s)
    (h3 : (orOpt (stripPrefixList "Bearer ".data s) (stripPrefixList "bearer ".data s)).getD s = []) :
    create_client_from_headers hs b = .error errEmptyKey := by
  simp only [create_client_from_headers, h1, h2]
  rw [if_pos h3]

theorem create_ok_headers (hs : HeaderMap) (b : Bool) (c : OpenAIConfig)
    (h : create_client_from_headers hs b = .ok c) :
    c.extraHeaders = if b then [("openai-beta".data, "assistants=v2".data)] else [] := by
  rcases hv : orOpt (getHeader hs "authorization".data) (getHeader hs "Authorization".data)
    with _ | v
  · rw [create_missing hs b hv] at h; exact Except.noConfusion h
  rcases hs2 : headerValueToStr v with _ | s
  · rw [create_badformat hs b v hv hs2] at h; exact Except.noConfusion h
  by_cases hk :
      (orOpt (stripPrefixList "Bearer ".data s) (stripPrefixList "bearer ".data s)).getD s = []
  · rw [create_empty_of hs b v s hv hs2 hk] at h; exact Except.noConfusion h
  · rw [create_ok_of hs b v s hv hs2 hk] at h
    cases h
    rfl

theorem dispatchShim_create_error (flag : Bool) (wrap : String) (st : AppState) (req : Request)
    (up : Upstream) (e : AppError)
    (h : create_client_from_headers req.headers flag = .error e) :
    dispatchShim flag wrap st req up = ⟨.error e, []⟩ := by
  unfold dispatchShim
  rw [h]

theorem upload_create_error (st : AppState) (req : Request) (up : Upstream) (e : AppError)
    (hx : (extractUpload req.multipart).isOk = true)
    (h : create_client_from_headers req.headers false = .error e) :
    upload_file st req up = ⟨.error e, []⟩ := by
  unfold upload_file
  rcases hex : extractUpload req.multipart with e2 | t
  · rw [hex] at hx; exact Bool.noConfusion hx
  · obtain ⟨fb, fn, p⟩ := t
    rw [h]

theorem upload_extract_error (st : AppState) (req : Request) (up : Upstream) (e : AppError)
    (hex : extractUpload req.multipart = .error e) :
    upload_file st req up = ⟨.error e, []⟩ := by
  unfold upload_file
  rw [hex]

theorem upload_calls_nil_of_create_error (st : AppState) (req : Request) (up : Upstream)
    (e : AppError) (h : create_client_from_headers req.headers false = .error e) :
    (upload_file st req up).calls = [] := by
  rcases hex : extractUpload req.multipart with e2 | t
  · rw [upload_extract_error st req up e2 hex]
  · rw [upload_create_error st req up e (by rw [hex]; rfl) h]

theorem runHandler_calls_nil (h : Handler) (st : AppState) (req : Request) (up : Upstream)
    (e : AppError)
    (he : create_client_from_headers req.headers (handlerBeta h) = .error e) :
    (runHandler h st req up).calls = [] := by
  cases h <;>
    simp only [handlerBeta] at he <;>
    first
      | exact upload_calls_nil_of_create_error st req up e he
      | (simp only [runHandler, handlerBeta]
         rw [dispatchShim_create_error _ _ st req up e he])

/-! ### Claim theorems -/

/-- C1: for every inbound header map containing a field named Authorization
(under any casing of the field name) whose value is `Bearer X` or
`bearer X` with non-empty `X`, credential resolution succeeds and the
resulting configuration carries credential exactly `X` (the prefix,
including its trailing space, is stripped). The field is the first
Authorization-named entry of the map, and its value is the byte encoding
of the text `p ++ X`. -/
theorem claim_C1 (pre post : HeaderMap) (name X p : List Char) (b : Bool)
    (hp : p = "Bearer ".data ∨ p = "bearer ".data)
    (hname : lowerName name = "authorization".data)
    (hpre : ∀ q ∈ pre, lowerName q.1 ≠ "authorization".data)
    (hX : X ≠ [])
    (hvis : (p ++ X).all visibleChar = true) :
    ∃ c, create_client_from_headers (pre ++ (name, strBytes (p ++ X)) :: post) b = .ok c
      ∧ c.api_key = X := by
  have hlow : lowerName "authorization".data = "authorization".data := by decide
  have hget : getHeader (pre ++ (name, strBytes (p ++ X)) :: post) "authorization".data
      = some (strBytes (p ++ X)) := by
    rw [getHeader_append_of pre _ _ (fun q hq => by rw [hlow]; exact hpre q hq)]
    exact getHeader_cons_of_eq (name, strBytes (p ++ X)) post _ (by rw [hlow]; exact hname)
  have h1 : orOpt (getHeader (pre ++ (name, strBytes (p ++ X)) :: post) "authorization".data)
      (getHeader (pre ++ (name, strBytes (p ++ X)) :: post) "Authorization".data)
      = some (strBytes (p ++ X)) := by rw [hget]; rfl
  have h2 := toStr_strBytes (p ++ X) hvis
  have hstrip : (orOpt (stripPrefixList "Bearer ".data (p ++ X))
      (stripPrefixList "bearer ".data (p ++ X))).getD (p ++ X) = X := by
    rcases hp with hp | hp <;> subst hp
    · rw [stripPrefixList_append]; rfl
    · have e1 : stripPrefixList "Bearer ".data ("bearer ".data ++ X) = none := rfl
      rw [e1]
      show (orOpt none (stripPrefixList "bearer ".data ("bearer ".data ++ X))).getD _ = X
      rw [stripPrefixList_append]
      rfl
  have hne : (orOpt (stripPrefixList "Bearer ".data (p ++ X))
      (stripPrefixList "bearer ".data (p ++ X))).getD (p ++ X) ≠ [] := by
    rw [hstrip]; exact hX
  exact ⟨_, create_ok_of _ b _ _ h1 h2 hne, by simp [hstrip]⟩

/-- Witness for C1: a map with an unrelated leading header and an
all-caps-named `AUTHORIZATION: Bearer sk-test` field, beta flag true. -/
theorem claim_C1_witness :
    (("Bearer ".data : List Char) = "Bearer ".data ∨ ("Bearer ".data : List Char) = "bearer ".data)
    ∧ lowerName "AUTHORIZATION".data = "authorization".data
    ∧ (∀ q ∈ ([(("X-Id".data : List Char), ([88] : HeaderValue))] : HeaderMap),
        lowerName q.1 ≠ "authorization".data)
    ∧ ("sk-test".data : List Char) ≠ []
    ∧ ("Bearer ".data ++ "sk-test".data).all visibleChar = true
    ∧ ∃ c, create_client_from_headers
        ([("X-Id".data, [88])] ++
          ("AUTHORIZATION".data, strBytes ("Bearer ".data ++ "sk-test".data)) :: []) true = .ok c
        ∧ c.api_key = "sk-test".data :=
  ⟨Or.inl rfl, by decide, by decide, by decide, by decide,
   claim_C1 [("X-Id".data, [88])] [] "AUTHORIZATION".data "sk-test".data "Bearer ".data true
     (Or.inl rfl) (by decide) (by decide) (by decide) (by decide)⟩

/-- C4: when the Authorization lookup yields the value `Bearer ` (the
recognized prefix with an empty suffix), resolution fails with the
empty-credential error: the emptiness check runs on the post-strip value. -/
theorem claim_C4 (hs : HeaderMap) (b : Bool)
    (hv : orOpt (getHeader hs "authorization".data) (getHeader hs "Authorization".data)
          = some (strBytes "Bearer ".data)) :
    create_client_from_headers hs b = .error errEmptyKey := by
  have h2 : headerValueToStr (strBytes "Bearer ".data) = some "Bearer ".data := by decide
  exact create_empty_of hs b _ _ hv h2 (by decide)

/-- Witness for C4: the single-entry map `Authorization: Bearer `. -/
theorem claim_C4_witness :
    orOpt (getHeader [(("Authorization".data : List Char), strBytes "Bearer ".data)]
        "authorization".data)
      (getHeader [(("Authorization".data : List Char), strBytes "Bearer ".data)]
        "Authorization".data) = some (strBytes "Bearer ".data)
    ∧ create_client_from_headers [("Authorization".data, strBytes "Bearer ".data)] false
        = .error errEmptyKey :=
  ⟨by decide, claim_C4 [("Authorization".data, strBytes "Bearer ".data)] false (by decide)⟩

/-- C5: when the Authorization lookup yields `BEARER X` (all-caps scheme),
resolution succeeds and the credential is the literal `BEARER X`: only the
exact prefixes `Bearer ` and `bearer ` are stripped. -/
theorem claim_C5 (hs : HeaderMap) (b : Bool) (X : List Char)
    (hvis : X.all visibleChar = true)
    (hv : orOpt (getHeader hs "authorization".data) (getHeader hs "Authorization".data)
          = some (strBytes ("BEARER ".data ++ X))) :
    ∃ c, create_client_from_headers hs b = .ok c ∧ c.api_key = "BEARER ".data ++ X := by
  have hvis2 : ("BEARER ".data ++ X).all visibleChar = true := by
    rw [List.all_append, hvis]
    decide
  have h2 := toStr_strBytes _ hvis2
  have e1 : stripPrefixList "Bearer ".data ("BEARER ".data ++ X) = none := rfl
  have e2 : stripPrefixList "bearer ".data ("BEARER ".data ++ X) = none := rfl
  have hstrip : (orOpt (stripPrefixList "Bearer ".data ("BEARER ".data ++ X))
      (stripPrefixList "bearer ".data ("BEARER ".data ++ X))).getD ("BEARER ".data ++ X)
      = "BEARER ".data ++ X := by rw [e1, e2]; rfl
  have hne : (orOpt (stripPrefixList "Bearer ".data ("BEARER ".data ++ X))
      (stripPrefixList "bearer ".data ("BEARER ".data ++ X))).getD ("BEARER ".data ++ X)
      ≠ [] := by
    rw [hstrip]
    simp
  exact ⟨_, create_ok_of _ b _ _ hv h2 hne, hstrip⟩

/-- Witness for C5: the single-entry map `authorization: BEARER x`. -/
theorem claim_C5_witness :
    ("x".data : List Char).all visibleChar = true
    ∧ orOpt (getHeader [(("authorization".data : List Char),
          strBytes ("BEARER ".data ++ "x".data))] "authorization".data)
        (getHeader [(("authorization".data : List Char),
          strBytes ("BEARER ".data ++ "x".data))] "Authorization".data)
        = some (strBytes ("BEARER ".data ++ "x".data))
    ∧ ∃ c, create_client_from_headers
        [("authorization".data, strBytes ("BEARER ".data ++ "x".data))] false = .ok c
        ∧ c.api_key = "BEARER ".data ++ "x".data :=
  ⟨by decide, by decide,
   claim_C5 [("authorization".data, strBytes ("BEARER ".data ++ "x".data))] false "x".data
     (by decide) (by decide)⟩

/-- C6: for a header map with no Authorization field under any casing,
resolution fails with the missing-header error (for either beta flag),
that error is distinct from the unreadable-encoding and empty-credential
errors, and no handler performs any upstream call on such a request. -/
theorem claim_C6 (h : Handler) (st : AppState) (req : Request) (up : Upstream)
    (hnone : ∀ q ∈ req.headers, lowerName q.1 ≠ "authorization".data) :
    (∀ b, create_client_from_headers req.headers b = .error errNoAuthHeader)
    ∧ (runHandler h st req up).calls = []
    ∧ errNoAuthHeader ≠ errBadAuthFormat ∧ errNoAuthHeader ≠ errEmptyKey := by
  have hlow1 : lowerName "authorization".data = "authorization".data := by decide
  have hlow2 : lowerName "Authorization".data = "authorization".data := by decide
  have hg1 : getHeader req.headers "authorization".data = none :=
    getHeader_none_of _ _ (fun q hq => by rw [hlow1]; exact hnone q hq)
  have hg2 : getHeader req.headers "Authorization".data = none :=
    getHeader_none_of _ _ (fun q hq => by rw [hlow2]; exact hnone q hq)
  have hcreate : ∀ b, create_client_from_headers req.headers b = .error errNoAuthHeader := by
    intro b
    apply create_missing
    rw [hg1, hg2]
    rfl
  exact ⟨hcreate, runHandler_calls_nil h st req up errNoAuthHeader (hcreate _),
    by decide, by decide⟩

/-- Witness for C6: the embeddings handler on a request carrying only a
Content-Type header. -/
theorem claim_C6_witness :
    (∀ q ∈ ([(("Content-Type".data : List Char), ([97] : HeaderValue))] : HeaderMap),
      lowerName q.1 ≠ "authorization".data)
    ∧ ((∀ b, create_client_from_headers [(("Content-Type".data : List Char), [97])] b
          = .error errNoAuthHeader)
       ∧ (runHandler .embeddings ⟨0⟩
            ⟨[("Content-Type".data, [97])], [], ⟨[], none⟩⟩ (fun _ _ => .ok [])).calls = []
       ∧ errNoAuthHeader ≠ errBadAuthFormat ∧ errNoAuthHeader ≠ errEmptyKey) :=
  ⟨by decide,
   claim_C6 .embeddings ⟨0⟩ ⟨[("Content-Type".data, [97])], [], ⟨[], none⟩⟩
     (fun _ _ => .ok []) (by decide)⟩

theorem dispatchShim_beta (flag : Bool) (wrap : String) (st : AppState) (req : Request)
    (up : Upstream) :
    ∀ ca ∈ (dispatchShim flag wrap st req up).calls, hasBetaHeader ca.1 = flag := by
  intro ca hca
  rcases hc : create_client_from_headers req.headers flag with e | c
  · rw [dispatchShim_create_error flag wrap st req up e hc] at hca
    simp at hca
  · have hh := create_ok_headers _ _ _ hc
    have hcalls : (dispatchShim flag wrap st req up).calls = [(c, .passthrough req.payload)] := by
      simp only [dispatchShim, hc]
      rcases hu : up c (.passthrough req.payload) with e2 | r <;> simp [hu]
    rw [hcalls, List.mem_singleton] at hca
    subst hca
    show hasBetaHeader c = flag
    unfold hasBetaHeader
    rw [hh]
    cases flag <;> rfl

theorem upload_file_beta (st : AppState) (req : Request) (up : Upstream) :
    ∀ ca ∈ (upload_file st req up).calls, hasBetaHeader ca.1 = false := by
  intro ca hca
  rcases hex : extractUpload req.multipart with e | t
  · rw [upload_extract_error st req up e hex] at hca
    simp at hca
  · obtain ⟨fb, fn, p⟩ := t
    rcases hc : create_client_from_headers req.headers false with e | c
    · rw [upload_create_error st req up e (by rw [hex]; rfl) hc] at hca
      simp at hca
    · have hh := create_ok_headers _ _ _ hc
      have hcalls : (upload_file st req up).calls
          = [(c, .fileCreate ⟨fn, fb, purposeOf p, none⟩)] := by
        simp only [upload_file, hex, hc]
        rcases hu : up c (.fileCreate ⟨fn, fb, purposeOf p, none⟩) with e2 | r <;> simp [hu]
      rw [hcalls, List.mem_singleton] at hca
      subst hca
      show hasBetaHeader c = false
      unfold hasBetaHeader
      rw [hh]
      rfl

/-- C2: every configuration a handler passes to its upstream call carries
the `OpenAI-Beta: assistants=v2` header exactly when the handler belongs to
the stateful-conversation family (assistants, threads, messages, runs);
handlers of the completions, embeddings, models, images, files, and
responses families never pass that header. -/
theorem claim_C2 (h : Handler) (st : AppState) (req : Request) (up : Upstream) :
    ∀ ca ∈ (runHandler h st req up).calls,
      hasBetaHeader ca.1 = (handlerFamily h).isStateful := by
  cases h <;>
    first
      | exact fun ca hca => upload_file_beta st req up ca hca
      | exact fun ca hca => dispatchShim_beta _ _ st req up ca hca

/-- Witness for C2: the create-run handler (runs family) with a valid raw
credential performs its upstream call with the beta header attached. -/
theorem claim_C2_witness :
    ((⟨"k".data, [("openai-beta".data, "assistants=v2".data)]⟩ : OpenAIConfig),
        UpstreamArg.passthrough [7])
      ∈ (runHandler .create_run ⟨0⟩
          ⟨[("authorization".data, strBytes "k".data)], [7], ⟨[], none⟩⟩
          (fun _ _ => .ok [])).calls
    ∧ hasBetaHeader ⟨"k".data, [("openai-beta".data, "assistants=v2".data)]⟩
        = (handlerFamily .create_run).isStateful :=
  ⟨by decide,
   claim_C2 .create_run ⟨0⟩ ⟨[("authorization".data, strBytes "k".data)], [7], ⟨[], none⟩⟩
     (fun _ _ => .ok [])
     (⟨"k".data, [("openai-beta".data, "assistants=v2".data)]⟩, UpstreamArg.passthrough [7])
     (by decide)⟩

/-- C3 counterexample: the claim says every handler performs credential
resolution as its first step and surfaces the resolver's error whenever
resolution fails. On a `POST /v1/files` request with an empty multipart
body and no Authorization header, resolution of the request's headers
fails with the missing-header error, yet `upload_file` returns the
multipart-stage error `File not provided` — a different error — because
it extracts the multipart body before resolving the credential. -/
theorem claim_C3_counterexample :
    create_client_from_headers ([] : HeaderMap) (handlerBeta .upload_file)
        = .error errNoAuthHeader
    ∧ runHandler .upload_file ⟨0⟩ ⟨[], [], ⟨[], none⟩⟩ (fun _ _ => .ok [])
        = ⟨.error ⟨"File not provided"⟩, []⟩
    ∧ (⟨"File not provided"⟩ : AppError) ≠ errNoAuthHeader :=
  ⟨by decide, by decide, by decide⟩

/-- C3 (amended): whenever credential resolution of a request's headers
(with the handler's beta flag) fails, the handler performs no upstream
call, and it returns the resolver's error — except that the file-upload
handler extracts the multipart body first, so if that stage already
failed, the multipart-stage error is returned instead. -/
theorem claim_C3_amended (h : Handler) (st : AppState) (req : Request) (up : Upstream)
    (e : AppError)
    (hfail : create_client_from_headers req.headers (handlerBeta h) = .error e) :
    (runHandler h st req up).calls = []
    ∧ ((runHandler h st req up).result = .error e
       ∨ (h = .upload_file ∧ ∃ e2, extractUpload req.multipart = .error e2
            ∧ (runHandler h st req up).result = .error e2)) := by
  refine ⟨runHandler_calls_nil h st req up e hfail, ?_⟩
  cases h
  case upload_file =>
    simp only [handlerBeta] at hfail
    simp only [runHandler]
    rcases hex : extractUpload req.multipart with e2 | t
    · refine Or.inr ⟨?_, e2, ?_, ?_⟩
      · trivial
      · trivial
      · rw [upload_extract_error st req up e2 hex]
    · exact Or.inl (by rw [upload_create_error st req up e (by rw [hex]; rfl) hfail])
  all_goals
    (simp only [handlerBeta] at hfail
     simp only [runHandler, handlerBeta]
     exact Or.inl (by rw [dispatchShim_create_error _ _ st req up e hfail]))

/-- Witness for C3 (amended): the chat-completions handler on a request
with no headers returns the resolver's missing-header error and performs
no upstream call. -/
theorem claim_C3_amended_witness :
    create_client_from_headers ([] : HeaderMap) (handlerBeta .chat_completions)
        = .error errNoAuthHeader
    ∧ ((runHandler .chat_completions ⟨0⟩ ⟨[], [5], ⟨[], none⟩⟩ (fun _ _ => .ok [])).calls = []
       ∧ ((runHandler .chat_completions ⟨0⟩ ⟨[], [5], ⟨[], none⟩⟩
            (fun _ _ => .ok [])).result = .error errNoAuthHeader
          ∨ (Handler.chat_completions = .upload_file
             ∧ ∃ e2, extractUpload (⟨[], none⟩ : Multipart) = .error e2
                ∧ (runHandler .chat_completions ⟨0⟩ ⟨[], [5], ⟨[], none⟩⟩
                    (fun _ _ => .ok [])).result = .error e2))) :=
  ⟨by decide,
   claim_C3_amended .chat_completions ⟨0⟩ ⟨[], [5], ⟨[], none⟩⟩ (fun _ _ => .ok [])
     errNoAuthHeader (by decide)⟩

theorem dispatchShim_calls_len (flag : Bool) (wrap : String) (st : AppState) (req : Request)
    (up : Upstream) : (dispatchShim flag wrap st req up).calls.length ≤ 1 := by
  rcases hc : create_client_from_headers req.headers flag with e | c
  · simp [dispatchShim, hc]
  · rcases hu : up c (.passthrough req.payload) with e2 | r <;> simp [dispatchShim, hc, hu]

theorem upload_file_calls_len (st : AppState) (req : Request) (up : Upstream) :
    (upload_file st req up).calls.length ≤ 1 := by
  rcases hex : extractUpload req.multipart with e | t
  · simp [upload_file, hex]
  · obtain ⟨fb, fn, p⟩ := t
    rcases hc : create_client_from_headers req.headers false with e | c
    · simp [upload_file, hex, hc]
    · rcases hu : up c (.fileCreate ⟨fn, fb, purposeOf p, none⟩) with e2 | r <;>
        simp [upload_file, hex, hc, hu]

theorem runHandler_calls_len (h : Handler) (st : AppState) (req : Request) (up : Upstream) :
    (runHandler h st req up).calls.length ≤ 1 := by
  cases h <;>
    first
      | exact upload_file_calls_len st req up
      | exact dispatchShim_calls_len _ _ st req up

/-- C7: every error a handler produces — credential, request-shape, or
upstream — is surfaced through the one `AppError` conversion: a uniform
HTTP 500 whose body is the human-readable message, with no differentiated
status codes; and no retry occurs (every handler performs at most one
upstream call, whatever the outcome). -/
theorem claim_C7 (h : Handler) (st : AppState) (req : Request) (up : Upstream) (e : AppError)
    (he : (runHandler h st req up).result = .error e) :
    respond (runHandler h st req up) = ⟨500, "Ошибка: " ++ e.msg⟩
    ∧ (AppError.into_response e).status = 500
    ∧ (runHandler h st req up).calls.length ≤ 1 := by
  refine ⟨?_, rfl, runHandler_calls_len h st req up⟩
  unfold respond
  rw [he]
  rfl

/-- Witness for C7: the list-models handler on a request with no
Authorization header responds 500 with the resolver's message. -/
theorem claim_C7_witness :
    (runHandler .list_models ⟨0⟩ ⟨[], [], ⟨[], none⟩⟩ (fun _ _ => .ok [])).result
        = .error errNoAuthHeader
    ∧ (respond (runHandler .list_models ⟨0⟩ ⟨[], [], ⟨[], none⟩⟩ (fun _ _ => .ok []))
          = ⟨500, "Ошибка: " ++ errNoAuthHeader.msg⟩
       ∧ (AppError.into_response errNoAuthHeader).status = 500
       ∧ (runHandler .list_models ⟨0⟩ ⟨[], [], ⟨[], none⟩⟩
            (fun _ _ => .ok [])).calls.length ≤ 1) :=
  ⟨by decide,
   claim_C7 .list_models ⟨0⟩ ⟨[], [], ⟨[], none⟩⟩ (fun _ _ => .ok []) errNoAuthHeader
     (by decide)⟩

theorem uploadLoop_no_file :
    ∀ (fields : List MPField),
      (∀ f ∈ fields, f.name ≠ "file".data) →
      (∀ f ∈ fields, f.name = "purpose".data → f.textRes.isOk = true) →
      ∀ fb fn p, ∃ p2, uploadLoop fields fb fn p = .ok (fb, fn, p2) := by
  intro fields
  induction fields with
  | nil => exact fun _ _ fb fn p => ⟨p, rfl⟩
  | cons f rest ih =>
    intro hnofile hreads fb fn p
    have hnf : f.name ≠ "file".data := hnofile f (List.mem_cons_self f rest)
    have hnofile2 : ∀ g ∈ rest, g.name ≠ "file".data :=
      fun g hg => hnofile g (List.mem_cons_of_mem f hg)
    have hreads2 : ∀ g ∈ rest, g.name = "purpose".data → g.textRes.isOk = true :=
      fun g hg => hreads g (List.mem_cons_of_mem f hg)
    by_cases hp : f.name = "purpose".data
    · have hok := hreads f (List.mem_cons_self f rest) hp
      rcases htx : f.textRes with e | t
      · rw [htx] at hok; exact Bool.noConfusion hok
      · have hstep : uploadLoop (f :: rest) fb fn p = uploadLoop rest fb fn (some t) := by
          simp only [uploadLoop, if_neg hnf, if_pos hp, htx]
        rw [hstep]
        exact ih hnofile2 hreads2 fb fn (some t)
    · have hstep : uploadLoop (f :: rest) fb fn p = uploadLoop rest fb fn p := by
        simp only [uploadLoop, if_neg hnf, if_neg hp]
      rw [hstep]
      exact ih hnofile2 hreads2 fb fn p

/-- C8: a `POST /v1/files` multipart request whose body contains no `file`
field (and whose present fields read without transport errors) fails with
the `File not provided` error before any upstream call. -/
theorem claim_C8 (st : AppState) (req : Request) (up : Upstream)
    (hnofile : ∀ f ∈ req.multipart.fields, f.name ≠ "file".data)
    (hreads : ∀ f ∈ req.multipart.fields, f.name = "purpose".data → f.textRes.isOk = true)
    (hstream : req.multipart.streamErr = none) :
    runHandler .upload_file st req up = ⟨.error ⟨"File not provided"⟩, []⟩ := by
  obtain ⟨p2, hloop⟩ := uploadLoop_no_file req.multipart.fields hnofile hreads none none none
  have hex : extractUpload req.multipart = .error ⟨"File not provided"⟩ := by
    simp only [extractUpload, hloop, hstream]
  exact upload_extract_error st req up _ hex

/-- Witness for C8: a multipart body holding only a well-formed `purpose`
field. -/
theorem claim_C8_witness :
    (∀ f ∈ ((⟨[⟨"purpose".data, none, .ok [], .ok "assistants".data⟩],
        none⟩ : Multipart)).fields, f.name ≠ "file".data)
    ∧ (∀ f ∈ ((⟨[⟨"purpose".data, none, .ok [], .ok "assistants".data⟩],
        none⟩ : Multipart)).fields,
        f.name = "purpose".data → f.textRes.isOk = true)
    ∧ ((⟨[⟨"purpose".data, none, .ok [], .ok "assistants".data⟩],
        none⟩ : Multipart)).streamErr = none
    ∧ runHandler .upload_file ⟨0⟩
        ⟨[], [], ⟨[⟨"purpose".data, none, .ok [], .ok "assistants".data⟩], none⟩⟩
        (fun _ _ => .ok []) = ⟨.error ⟨"File not provided"⟩, []⟩ :=
  ⟨by decide, by decide, rfl,
   claim_C8 ⟨0⟩ ⟨[], [], ⟨[⟨"purpose".data, none, .ok [], .ok "assistants".data⟩], none⟩⟩
     (fun _ _ => .ok []) (by decide) (by decide) rfl⟩

/-- C9: every handler's outcome is independent of the process-wide
application state: the same handler on the same request and upstream
oracle produces identical outcomes for any two states, because no handler
reads or writes the state. -/
theorem claim_C9 (h : Handler) (st1 st2 : AppState) (req : Request) (up : Upstream) :
    runHandler h st1 req up = runHandler h st2 req up := by
  cases h <;> rfl

/-- C10: the multipart `purpose` field is required: when the extraction
loop finds a file (with a file name) but no `purpose` field, the upload
handler fails with `Purpose not provided` before any upstream call; the
fixed `assistants` fallback applies only when a `purpose` value is present
but not one of the recognized strings (`assistants`, `fine-tune`), in
which case the upstream request is built with the `Assistants` purpose. -/
theorem claim_C10 (st : AppState) (req : Request) (up : Upstream) (fb : List Nat)
    (fn : List Char) :
    (uploadLoop req.multipart.fields none none none = .ok (some fb, some fn, none) →
      req.multipart.streamErr = none →
      runHandler .upload_file st req up = ⟨.error ⟨"Purpose not provided"⟩, []⟩)
    ∧ (∀ p c, uploadLoop req.multipart.fields none none none = .ok (some fb, some fn, some p) →
        req.multipart.streamErr = none →
        p ≠ "assistants".data → p ≠ "fine-tune".data →
        create_client_from_headers req.headers false = .ok c →
        (runHandler .upload_file st req up).calls
          = [(c, .fileCreate ⟨fn, fb, FilePurpose.assistants, none⟩)]) := by
  constructor
  · intro hloop hstream
    have hex : extractUpload req.multipart = .error ⟨"Purpose not provided"⟩ := by
      simp only [extractUpload, hloop, hstream]
    exact upload_extract_error st req up _ hex
  · intro p c hloop hstream hp1 hp2 hc
    have hex : extractUpload req.multipart = .ok (fb, fn, p) := by
      simp only [extractUpload, hloop, hstream]
    have hpur : purposeOf p = FilePurpose.assistants := by
      simp only [purposeOf, if_neg hp1, if_neg hp2]
    show (upload_file st req up).calls = _
    simp only [upload_file, hex, hc, hpur]
    rcases hu : up c (.fileCreate ⟨fn, fb, FilePurpose.assistants, none⟩) with e2 | r <;>
      simp [hu]

/-- Witness for C10: part one on a body with only a file field; part two
on a body with a file field and an unrecognized purpose `vision`, with a
valid raw credential. -/
theorem claim_C10_witness :
    (uploadLoop ([⟨"file".data, some "f.txt".data, .ok [1], .ok []⟩] : List MPField)
        none none none = .ok (some [1], some "f.txt".data, none)
     ∧ runHandler .upload_file ⟨0⟩
         ⟨[], [], ⟨[⟨"file".data, some "f.txt".data, .ok [1], .ok []⟩], none⟩⟩
         (fun _ _ => .ok []) = ⟨.error ⟨"Purpose not provided"⟩, []⟩)
    ∧ (uploadLoop ([⟨"file".data, some "f.txt".data, .ok [1], .ok []⟩,
          ⟨"purpose".data, none, .ok [], .ok "vision".data⟩] : List MPField)
          none none none = .ok (some [1], some "f.txt".data, some "vision".data)
       ∧ ("vision".data : List Char) ≠ "assistants".data
       ∧ ("vision".data : List Char) ≠ "fine-tune".data
       ∧ create_client_from_headers [(("authorization".data : List Char),
            strBytes "k".data)] false = .ok ⟨"k".data, []⟩
       ∧ (runHandler .upload_file ⟨0⟩
            ⟨[("authorization".data, strBytes "k".data)], [],
             ⟨[⟨"file".data, some "f.txt".data, .ok [1], .ok []⟩,
               ⟨"purpose".data, none, .ok [], .ok "vision".data⟩], none⟩⟩
            (fun _ _ => .ok [])).calls
          = [(⟨"k".data, []⟩, .fileCreate ⟨"f.txt".data, [1], FilePurpose.assistants, none⟩)]) :=
  ⟨⟨by decide,
    (claim_C10 ⟨0⟩ ⟨[], [], ⟨[⟨"file".data, some "f.txt".data, .ok [1], .ok []⟩], none⟩⟩
        (fun _ _ => .ok []) [1] "f.txt".data).1 (by decide) rfl⟩,
   by decide, by decide, by decide, by decide,
   (claim_C10 ⟨0⟩
       ⟨[("authorization".data, strBytes "k".data)], [],
        ⟨[⟨"file".data, some "f.txt".data, .ok [1], .ok []⟩,
          ⟨"purpose".data, none, .ok [], .ok "vision".data⟩], none⟩⟩
       (fun _ _ => .ok []) [1] "f.txt".data).2 "vision".data ⟨"k".data, []⟩
     (by decide) rfl (by decide) (by decide) (by decide)⟩

end OABypass
